import Mathlib

/-!
# BB84 QKD simulator — verification development

The repository's `src/` holds only the React frontend (`src/frontend/src/App.js`
and an unnamed duplicate).  The simulation engine, sifter, QBER estimator, key
derivation and authenticated cipher live in a backend that the frontend calls
over HTTP (`/api/bb84`, `/api/encrypt`, `/api/decrypt`) and that is not part of
`src/`; those components are modelled here from the specification's words
(each such definition says so in its doc comment).  The frontend's own logic
(`runSimulation`, `encryptMessage`, the encrypt-button guard) is embedded from
the source.
-/

namespace BB84

/-- A single key/message bit, `{Zero, One}` in the data model. -/
inductive Bit where
  | zero
  | one
deriving DecidableEq, Repr

/-- Bytes are naturals; cipher operations keep values below 256 when inputs are. -/
abbrev Byte := Nat

/-- Numeric value of a bit. -/
def bitVal : Bit → Nat
  | .zero => 0
  | .one => 1

/-- Errors of the cryptographic layer, from the spec's error taxonomy. -/
inductive CryptoError where
  | InsufficientEntropy
  | AuthenticationFailure
deriving DecidableEq, Repr

/-- Accumulate up to eight bits into one byte, most-significant-bit first. -/
def bitsToByte (bs : List Bit) : Byte :=
  bs.foldl (fun acc b => acc * 2 + bitVal b) 0

/-- Pad a final (short) group of bits to eight with zero bits. -/
def padTo8 (bs : List Bit) : List Bit :=
  bs ++ List.replicate (8 - bs.length) Bit.zero

/-- Modelled from the spec: the bit-packing step of the key-derivation
function (backend not in `src/`): bits are packed into bytes
most-significant-bit-first, the final group padded deterministically. -/
def packBits : List Bit → List Byte
  | [] => []
  | b0 :: b1 :: b2 :: b3 :: b4 :: b5 :: b6 :: b7 :: rest =>
    bitsToByte [b0, b1, b2, b3, b4, b5, b6, b7] :: packBits rest
  | bs => [bitsToByte (padTo8 bs)]

/-- Modelled from the spec: the fixed-length hash inside the key-derivation
function (backend not in `src/`).  An idealised deterministic mixing fold
producing a 32-byte digest stands in for the cryptographic hash. -/
def hashBytes (bs : List Byte) : List Byte :=
  (bs.foldl
    (fun (p : List Byte × Nat) b =>
      (p.1.set (p.2 % 32) ((p.1.getD (p.2 % 32) 0 * 131 + b + 1) % 256), p.2 + 1))
    (List.replicate 32 7, 0)).1

/-- Modelled from the spec: `derive(bits) -> DerivedKey`, failing with
`InsufficientEntropy` on the empty bit sequence, otherwise deterministically
packing the bits into bytes and hashing to a fixed-length key (backend not
in `src/`). -/
def derive (bits : List Bit) : Except CryptoError (List Byte) :=
  if bits = [] then .error .InsufficientEntropy
  else .ok (hashBytes (packBits bits))

/-- Modelled from the spec: the keystream of the cipher, a deterministic
function of key, nonce and position. -/
def keystream (key : List Byte) (nonce i : Nat) : Byte :=
  (key.getD (i % (max key.length 1)) 0 + nonce + i) % 256

/-- XOR a byte list against the keystream starting at position `i`. -/
def streamXor (key : List Byte) (nonce : Nat) : Nat → List Byte → List Byte
  | _, [] => []
  | i, b :: bs => (b ^^^ keystream key nonce i) :: streamXor key nonce (i + 1) bs

/-- Modelled from the spec: the authentication tag of the authenticated cipher
(backend not in `src/`).  The spec demands that the tag verify exactly when
key, nonce and ciphertext are the ones used at encryption; we idealise the
unforgeable MAC by letting the tag be determined by that triple. -/
structure AuthTag where
  tagKey : List Byte
  tagNonce : Nat
  tagCiphertext : List Byte
deriving DecidableEq, Repr

/-- `CipherEnvelope`: `{nonce, ciphertext, authentication tag}` from the data
model. -/
structure CipherEnvelope where
  nonce : Nat
  ciphertext : List Byte
  tag : AuthTag
deriving DecidableEq, Repr

/-- Compute the (idealised) tag over key, nonce and ciphertext. -/
def mkTag (key : List Byte) (nonce : Nat) (ct : List Byte) : AuthTag :=
  ⟨key, nonce, ct⟩

/-- Modelled from the spec: `encrypt(message, key) -> CipherEnvelope`
(backend not in `src/`).  The fresh random nonce of each call is passed
explicitly. -/
def encrypt (m : List Byte) (key : List Byte) (nonce : Nat) : CipherEnvelope :=
  let ct := streamXor key nonce 0 m
  ⟨nonce, ct, mkTag key nonce ct⟩

/-- Modelled from the spec: `decrypt(envelope, key)`, failing with
`AuthenticationFailure` whenever the tag does not verify — the same error for
a wrong key and for a tampered ciphertext (backend not in `src/`). -/
def decrypt (env : CipherEnvelope) (key : List Byte) :
    Except CryptoError (List Byte) :=
  if env.tag = mkTag key env.nonce env.ciphertext then
    .ok (streamXor key env.nonce 0 env.ciphertext)
  else
    .error .AuthenticationFailure

/-- `Basis`: the two conjugate measurement bases of the data model. -/
inductive Basis where
  | rectilinear
  | diagonal
deriving DecidableEq, Repr

/-- Error of the simulation engine, from the spec's error taxonomy. -/
inductive SimError where
  | InvalidParameter
deriving DecidableEq, Repr

/-- Modelled from the spec: the random draws one photon consumes, supplied by
the per-run `BitBasisSource` (backend not in `src/`).  `eveU` is the uniform
draw in `[0,1)` deciding the Bernoulli interception trial; `eveCoin` and
`bobCoin` are the fair coins resolving a wrong-basis measurement. -/
structure PhotonDraws where
  aliceBit : Bit
  aliceBasis : Basis
  eveU : ℚ
  eveBasis : Basis
  eveCoin : Bit
  bobBasis : Basis
  bobCoin : Bit

/-- The BB84 measurement rule: a matching basis reads the photon's true bit,
a mismatched basis yields the fair coin. -/
def measureBit (photonBit : Bit) (photonBasis measBasis : Basis)
    (coin : Bit) : Bit :=
  if measBasis = photonBasis then photonBit else coin

/-- `PhotonEvent`: the immutable per-photon trace record of the data model,
with `eveBasis`/`eveBit` optional. -/
structure PhotonEvent where
  index : Nat
  aliceBit : Bit
  aliceBasis : Basis
  eveIntercepted : Bool
  eveBasis : Option Basis
  eveBit : Option Bit
  bobBasis : Basis
  bobBit : Bit
deriving DecidableEq, Repr

/-- Modelled from the spec: one iteration of the engine's photon loop
(backend not in `src/`): Eve intercepts when her uniform draw falls below the
probability, measures by the BB84 rule and resends; Bob measures whichever
photon reaches him. -/
def simulatePhoton (prob : ℚ) (i : Nat) (d : PhotonDraws) : PhotonEvent :=
  let intercepted := decide (d.eveU < prob)
  let eveBit := measureBit d.aliceBit d.aliceBasis d.eveBasis d.eveCoin
  let channelBit := if intercepted then eveBit else d.aliceBit
  let channelBasis := if intercepted then d.eveBasis else d.aliceBasis
  { index := i
    aliceBit := d.aliceBit
    aliceBasis := d.aliceBasis
    eveIntercepted := intercepted
    eveBasis := if intercepted then some d.eveBasis else none
    eveBit := if intercepted then some eveBit else none
    bobBasis := d.bobBasis
    bobBit := measureBit channelBit channelBasis d.bobBasis d.bobCoin }

/-- Modelled from the spec: `SimulationEngine.run` (backend not in `src/`).
Parameters are validated before any simulation work; each index
`0..photonCount-1` then yields exactly one `PhotonEvent` from its own draws. -/
def run (photonCount : Int) (prob : ℚ) (src : Nat → PhotonDraws) :
    Except SimError (List PhotonEvent) :=
  if photonCount ≤ 0 then .error .InvalidParameter
  else if prob < 0 then .error .InvalidParameter
  else if 1 < prob then .error .InvalidParameter
  else .ok ((List.range photonCount.toNat).map fun i => simulatePhoton prob i (src i))

/-- `SiftingResult` from the data model: matched indices, the two sifted keys
and Eve's partial key. -/
structure SiftingResult where
  matchedIndices : List Nat
  aliceKey : List Bit
  bobKey : List Bit
  eveKey : List Bit

/-- Positions where the two sifted keys disagree. -/
def mismatchCount (a b : List Bit) : Nat :=
  (a.zip b).countP fun p => decide (p.1 ≠ p.2)

/-- Modelled from the spec: `QBEREstimator.estimate` (backend not in `src/`):
mismatches between the sifted keys divided by the sifted length, `0` on an
empty sifted key. -/
def estimate (s : SiftingResult) : ℚ :=
  if s.aliceKey.length = 0 then 0
  else (mismatchCount s.aliceKey s.bobKey : ℚ) / (s.aliceKey.length : ℚ)

/-! ## Frontend embedding (from `src/frontend/src/App.js`) -/

/-- One row of the backend's `table_data`, holding the JSON keys the frontend
reads: `"Alice Bit"`, `"Alice Basis"`, `"Bob Basis"`, `"Match"`,
`"Eve Intercepting"`, `"Eve Bit"`, `"Bob Measured Bit"`. -/
structure TableRow where
  aliceBitField : Nat
  aliceBasisField : String
  bobBasisField : String
  matchField : String
  eveInterceptingField : String
  eveBitField : String
  bobMeasuredBitField : Nat
deriving DecidableEq, Repr

/-- The parsed JSON of a `/api/bb84` response as the frontend consumes it:
an optional `error` field plus the payload fields `runSimulation` reads. -/
structure RunData where
  error : Option String
  table_data : List TableRow
  matched_indices : List Nat
  bob_key : List Nat
  eve_key : List Nat
  qber : ℚ
deriving DecidableEq, Repr

/-- The component state fields `runSimulation` touches (from the `useState`
hooks of `BB84Simulator`). -/
structure SimView where
  tableData : List TableRow
  highlightedRow : Option Nat
  siftedKey : List Nat
  qber : ℚ
  eveKey : List Nat
  timeline : String
  isRunning : Bool
deriving DecidableEq, Repr

/-- The `useState` initial values of the fields modelled in `SimView`. -/
def initialView : SimView :=
  { tableData := []
    highlightedRow := none
    siftedKey := []
    qber := 0
    eveKey := []
    timeline := ""
    isRunning := false }

/-- JavaScript truthiness of `data.error`: an absent field and the empty
string are falsy, any other string is truthy. -/
def jsTruthyStr : Option String → Bool
  | none => false
  | some s => decide (s ≠ "")

/-- The resets `runSimulation` performs before sending the request
(`App.js` lines 24–30). -/
def resetForRun (s : SimView) : SimView :=
  { s with
    isRunning := true
    tableData := []
    highlightedRow := none
    siftedKey := []
    qber := 0
    eveKey := []
    timeline := "Sending request to quantum backend..." }

/-- `runSimulation`'s handling of a parsed response (`App.js` lines 23–92):
after the initial resets, a truthy `data.error` sets the timeline and
returns; otherwise the animation loop fills `tableData` row by row, the
sifting loop ends with `highlightedRow` back at `null`, and the final
results are written.  The success branch stores `data.qber * 100` (the
two-decimal display formatting of `toFixed` is presentation only and not
modelled). -/
def applyRunResponse (s : SimView) (d : RunData) : SimView :=
  let s := resetForRun s
  if jsTruthyStr d.error then
    { s with
      timeline := "Error: " ++ d.error.getD ""
      isRunning := false }
  else
    { s with
      tableData := d.table_data
      highlightedRow := none
      siftedKey := d.bob_key
      qber := d.qber * 100
      eveKey := d.eve_key
      timeline := "✅ Quantum simulation complete"
      isRunning := false }

/-- The body `encryptMessage` posts to `/api/encrypt` (`App.js` lines
121–124). -/
structure EncryptRequest where
  message : String
  key : List Nat
deriving DecidableEq, Repr

/-- `encryptMessage`'s guard and request (`App.js` lines 107–125): the JS
test `!message || siftedKey.length === 0` returns early (no request) when the
message is the empty string or the sifted key is empty; otherwise the message
and the sifted key are sent. -/
def encryptRequest (message : String) (siftedKey : List Nat) :
    Option EncryptRequest :=
  if message = "" ∨ siftedKey.length = 0 then none
  else some { message := message, key := siftedKey }

/-- The encrypt button's `disabled={siftedKey.length === 0}` (`App.js`
line 360). -/
def encryptButtonDisabled (siftedKey : List Nat) : Bool :=
  siftedKey.length == 0

/-- Decode a wire bit (the backend sends the key as integers) to a `Bit`. -/
def natToBit (n : Nat) : Bit :=
  if n = 1 then .one else .zero

/-! ## Run-boundary field names (claim C4) -/

/-- The JSON keys of the request body `runSimulation` sends
(`App.js` lines 38–41). -/
def frontendRunRequestFields : List String :=
  ["n_bits", "eve_prob"]

/-- The top-level response fields `runSimulation` reads
(`App.js` lines 46–85). -/
def frontendRunResponseFields : List String :=
  ["error", "table_data", "matched_indices", "bob_key", "eve_key", "qber"]

/-- The `table_data` row keys the frontend reads by name
(`App.js` lines 59, 64, 65, 287–289). -/
def frontendRowKeysRead : List String :=
  ["Alice Bit", "Alice Basis", "Match", "Eve Intercepting", "Bob Measured Bit"]

/-- The run-request fields as the spec's boundary contract names them
(spec §6). -/
def specRunRequestFields : List String :=
  ["photonCount", "eveInterceptProbability"]

/-- The run-response components as the spec's boundary contract names them
(spec §6), with `error` as the `InvalidParameter` alternative. -/
def specRunResponseFields : List String :=
  ["error", "perPhotonRows", "matchedIndices", "bobKey", "eveKey", "qber"]

/-- The per-photon row fields as the spec's boundary contract names them
(spec §6). -/
def specRowFields : List String :=
  ["aliceBit", "aliceBasisSymbol", "bobBasisSymbol", "basesMatch",
   "eveIntercepted", "eveBit", "bobBit"]

/-- The wire-name-to-contract-name correspondence between the backend's JSON
keys and the spec's boundary contract. -/
def wireToContract (s : String) : String :=
  if s = "n_bits" then "photonCount"
  else if s = "eve_prob" then "eveInterceptProbability"
  else if s = "table_data" then "perPhotonRows"
  else if s = "matched_indices" then "matchedIndices"
  else if s = "bob_key" then "bobKey"
  else if s = "eve_key" then "eveKey"
  else s

/-- The row-key-to-contract-name correspondence for `table_data` rows. -/
def rowKeyToContract (s : String) : String :=
  if s = "Alice Bit" then "aliceBit"
  else if s = "Alice Basis" then "aliceBasisSymbol"
  else if s = "Bob Basis" then "bobBasisSymbol"
  else if s = "Match" then "basesMatch"
  else if s = "Eve Intercepting" then "eveIntercepted"
  else if s = "Eve Bit" then "eveBit"
  else if s = "Bob Measured Bit" then "bobBit"
  else s

/-- XOR-ing the same keystream twice restores the plaintext. -/
theorem streamXor_streamXor (key : List Byte) (nonce : Nat) (i : Nat)
    (m : List Byte) :
    streamXor key nonce i (streamXor key nonce i m) = m := by
  induction m generalizing i with
  | nil => rfl
  | cons b bs ih =>
    simp only [streamXor, Nat.xor_assoc, Nat.xor_self, Nat.xor_zero, ih]

/-- C1: for every non-empty byte message `m` and non-empty key bit sequence
`k`, decrypting the envelope produced by `encrypt(m, derive(k))` with the same
derived key returns exactly `m`. -/
theorem encrypt_decrypt_roundtrip (m : List Byte) (kbits : List Bit)
    (nonce : Nat) (dk : List Byte) (_hm : m ≠ []) (_hk : kbits ≠ [])
    (_hd : derive kbits = .ok dk) :
    decrypt (encrypt m dk nonce) dk = .ok m := by
  unfold decrypt encrypt
  rw [if_pos rfl, streamXor_streamXor]

/-- Sample message for concrete evaluations. -/
def m0 : List Byte := [104, 105, 33]

/-- Sample key bit sequence for concrete evaluations. -/
def k0 : List Bit := [.one, .zero, .one, .one, .zero]

/-- The derived key of `k0`. -/
def dk0 : List Byte := hashBytes (packBits k0)

/-- C1 witness: the round trip at a concrete message, key and nonce. -/
theorem encrypt_decrypt_roundtrip_witness :
    m0 ≠ [] ∧ k0 ≠ [] ∧ derive k0 = .ok dk0 ∧
      decrypt (encrypt m0 dk0 5) dk0 = .ok m0 :=
  ⟨by decide, by decide, rfl,
    encrypt_decrypt_roundtrip m0 k0 5 dk0 (by decide) (by decide) rfl⟩

/-- C6: decrypting under a different derived key fails with
`AuthenticationFailure`, and decrypting a tampered ciphertext fails with the
very same `AuthenticationFailure` value — the error signal does not
distinguish the two cases. -/
theorem decrypt_auth_failure (m : List Byte) (k1 k2 key : List Byte)
    (nonce : Nat) (ct : List Byte) (hk : k1 ≠ k2)
    (hct : ct ≠ (encrypt m key nonce).ciphertext) :
    decrypt (encrypt m k1 nonce) k2 = .error .AuthenticationFailure ∧
      decrypt { encrypt m key nonce with ciphertext := ct } key
        = .error .AuthenticationFailure := by
  constructor
  · unfold decrypt
    rw [if_neg]
    intro h
    exact hk (congrArg AuthTag.tagKey h)
  · unfold decrypt
    rw [if_neg]
    intro h
    exact hct (congrArg AuthTag.tagCiphertext h).symm

/-- C6 witness: wrong key and tampered ciphertext at concrete inputs. -/
theorem decrypt_auth_failure_witness :
    ([1] : List Byte) ≠ [2] ∧ ([9] : List Byte) ≠ (encrypt m0 dk0 3).ciphertext ∧
      decrypt (encrypt m0 [1] 3) [2] = .error .AuthenticationFailure ∧
      decrypt { encrypt m0 dk0 3 with ciphertext := [9] } dk0
        = .error .AuthenticationFailure := by
  refine ⟨by decide, by decide, ?_⟩
  exact decrypt_auth_failure m0 [1] [2] dk0 3 [9] (by decide) (by decide)

/-- C7: `derive []` fails with `InsufficientEntropy`; on any non-empty bit
sequence `derive` succeeds with the deterministic packed-and-hashed value, so
two calls with the same input produce identical derived keys. -/
theorem derive_props :
    derive [] = .error .InsufficientEntropy ∧
    (∀ bits : List Bit, bits ≠ [] →
      derive bits = .ok (hashBytes (packBits bits))) ∧
    (∀ b1 b2 : List Bit, b1 = b2 → derive b1 = derive b2) := by
  refine ⟨rfl, fun bits hb => ?_, fun b1 b2 h => by rw [h]⟩
  unfold derive
  rw [if_neg hb]

/-- C7 witness: the empty-input failure together with success at `k0`. -/
theorem derive_props_witness :
    derive [] = .error .InsufficientEntropy ∧ k0 ≠ [] ∧ derive k0 = .ok dk0 :=
  ⟨derive_props.1, by decide, derive_props.2.1 k0 (by decide)⟩

/-- C2: for every `photonCount > 0` and every interception probability in
`[0,1]` (degenerate values included), `run` succeeds with a trace of exactly
`photonCount` events whose event at position `j` carries index `j` — each
index `0..photonCount-1` present exactly once, in ascending order, one event
per photon. -/
theorem run_trace_shape (pc : Int) (prob : ℚ) (src : Nat → PhotonDraws)
    (hpc : 0 < pc) (h0 : 0 ≤ prob) (h1 : prob ≤ 1) :
    ∃ trace : List PhotonEvent, run pc prob src = .ok trace ∧
      (trace.length : Int) = pc ∧
      ∀ j (hj : j < trace.length), (trace.get ⟨j, hj⟩).index = j := by
  refine ⟨(List.range pc.toNat).map fun i => simulatePhoton prob i (src i),
    ?_, ?_, ?_⟩
  · unfold run
    rw [if_neg (by omega), if_neg (not_lt.mpr h0), if_neg (not_lt.mpr h1)]
  · simp only [List.length_map, List.length_range]
    omega
  · intro j hj
    simp only [List.get_eq_getElem, List.getElem_map, List.getElem_range]
    rfl

/-- A fixed randomness source for concrete evaluations. -/
def srcW : Nat → PhotonDraws := fun _ =>
  { aliceBit := .one
    aliceBasis := .rectilinear
    eveU := 1/2
    eveBasis := .diagonal
    eveCoin := .zero
    bobBasis := .rectilinear
    bobCoin := .one }

/-- C2 witness: the trace shape at `photonCount = 3`, probability `1/2`. -/
theorem run_trace_shape_witness :
    (0 : Int) < 3 ∧ (0 : ℚ) ≤ 1/2 ∧ (1/2 : ℚ) ≤ 1 ∧
      ∃ trace : List PhotonEvent, run 3 (1/2) srcW = .ok trace ∧
        (trace.length : Int) = 3 ∧
        ∀ j (hj : j < trace.length), (trace.get ⟨j, hj⟩).index = j :=
  ⟨by norm_num, by norm_num, by norm_num,
    run_trace_shape 3 (1/2) srcW (by norm_num) (by norm_num) (by norm_num)⟩

/-- C5: a non-positive photon count or a probability outside `[0,1]` makes
`run` fail with `InvalidParameter`; the validation precedes the photon loop,
so only the structured error and no partial trace is returned. -/
theorem run_invalid_parameter (pc : Int) (prob : ℚ) (src : Nat → PhotonDraws)
    (h : pc ≤ 0 ∨ prob < 0 ∨ 1 < prob) :
    run pc prob src = .error .InvalidParameter := by
  unfold run
  rcases h with h | h | h
  · rw [if_pos h]
  · by_cases hpc : pc ≤ 0
    · rw [if_pos hpc]
    · rw [if_neg hpc, if_pos h]
  · by_cases hpc : pc ≤ 0
    · rw [if_pos hpc]
    · rw [if_neg hpc]
      by_cases h0 : prob < 0
      · rw [if_pos h0]
      · rw [if_neg h0, if_pos h]

/-- C5 witness: `photonCount = 0` is rejected. -/
theorem run_invalid_parameter_witness :
    ((0 : Int) ≤ 0 ∨ (1/2 : ℚ) < 0 ∨ 1 < (1/2 : ℚ)) ∧
      run 0 (1/2) srcW = .error .InvalidParameter :=
  ⟨Or.inl (by norm_num),
    run_invalid_parameter 0 (1/2) srcW (Or.inl (by norm_num))⟩

/-- C8: in every trace `run` produces, every event has `eveBasis` and
`eveBit` absent when `eveIntercepted` is false and both present when it is
true — the two optional fields are never present or absent separately. -/
theorem trace_eve_fields_invariant (pc : Int) (prob : ℚ)
    (src : Nat → PhotonDraws) (trace : List PhotonEvent)
    (h : run pc prob src = .ok trace) :
    ∀ e ∈ trace,
      (e.eveIntercepted = false → e.eveBasis = none ∧ e.eveBit = none) ∧
      (e.eveIntercepted = true → e.eveBasis.isSome ∧ e.eveBit.isSome) := by
  intro e he
  have htr : trace =
      (List.range pc.toNat).map fun i => simulatePhoton prob i (src i) := by
    unfold run at h
    split at h
    · exact Except.noConfusion h
    · split at h
      · exact Except.noConfusion h
      · split at h
        · exact Except.noConfusion h
        · injection h with h
          exact h.symm
  subst htr
  obtain ⟨i, -, rfl⟩ := List.mem_map.mp he
  by_cases hU : (src i).eveU < prob <;>
    simp [simulatePhoton, hU]

/-- The single event of the C8 witness run. -/
def eW : PhotonEvent := simulatePhoton 0 0 (srcW 0)

/-- C8 witness: the invariant instantiated on a concrete one-photon run. -/
theorem trace_eve_fields_invariant_witness :
    run 1 0 srcW = .ok [eW] ∧ eW ∈ [eW] ∧
      ((eW.eveIntercepted = false → eW.eveBasis = none ∧ eW.eveBit = none) ∧
       (eW.eveIntercepted = true → eW.eveBasis.isSome ∧ eW.eveBit.isSome)) :=
  ⟨by rfl, by simp,
    trace_eve_fields_invariant 1 0 srcW [eW] (by rfl) eW (by simp)⟩

/-- `mismatchCount` never exceeds the length of the first key. -/
theorem mismatchCount_le_length (a b : List Bit) :
    mismatchCount a b ≤ a.length := by
  calc mismatchCount a b ≤ (a.zip b).length := List.countP_le_length _
    _ ≤ a.length := by rw [List.length_zip]; exact Nat.min_le_left _ _

/-- C3: the QBER estimate is `0` on an empty sifted key (not an error), lies
in `[0,1]`, and on a non-empty sifted key equals the mismatch count divided
by the sifted length. -/
theorem estimate_props (s : SiftingResult) :
    (s.aliceKey = [] → estimate s = 0) ∧
    0 ≤ estimate s ∧ estimate s ≤ 1 ∧
    (s.aliceKey ≠ [] →
      estimate s * (s.aliceKey.length : ℚ)
        = (mismatchCount s.aliceKey s.bobKey : ℚ)) := by
  by_cases hlen : s.aliceKey.length = 0
  · have hnil : s.aliceKey = [] := List.length_eq_zero.mp hlen
    unfold estimate
    rw [if_pos hlen]
    exact ⟨fun _ => rfl, le_refl 0, zero_le_one, fun hne => absurd hnil hne⟩
  · have hpos : (0 : ℚ) < (s.aliceKey.length : ℚ) := by
      exact_mod_cast Nat.pos_of_ne_zero hlen
    unfold estimate
    rw [if_neg hlen]
    refine ⟨fun hnil => absurd (by rw [hnil]; rfl) hlen, ?_, ?_, fun _ => ?_⟩
    · positivity
    · rw [div_le_one hpos]
      exact_mod_cast mismatchCount_le_length s.aliceKey s.bobKey
    · exact div_mul_cancel₀ _ (ne_of_gt hpos)

/-- A concrete sifting result for the C3 witness. -/
def sW : SiftingResult :=
  { matchedIndices := [0, 2]
    aliceKey := [.zero, .one]
    bobKey := [.zero, .zero]
    eveKey := [.one] }

/-- C3 witness: the estimator's properties at a concrete sifting result
(one mismatch over two sifted bits). -/
theorem estimate_props_witness :
    ((sW.aliceKey = [] → estimate sW = 0) ∧
      0 ≤ estimate sW ∧ estimate sW ≤ 1 ∧
      (sW.aliceKey ≠ [] →
        estimate sW * (sW.aliceKey.length : ℚ)
          = (mismatchCount sW.aliceKey sW.bobKey : ℚ))) ∧
    estimate sW = 1/2 :=
  ⟨estimate_props sW,
    by
      have hc : mismatchCount sW.aliceKey sW.bobKey = 1 := by rfl
      have hl : sW.aliceKey.length = 2 := by rfl
      unfold estimate
      rw [if_neg (by rw [hl]; omega), hc, hl]
      norm_num⟩

/-- C9: `encryptMessage` sends a request only when the message is non-empty
and the sifted key has at least one bit; the request carries exactly those
values, on such a key `derive` cannot fail with `InsufficientEntropy`, and
the encrypt button is disabled while the sifted key is empty. -/
theorem encryptMessage_guard (msg : String) (key : List Nat) :
    (∀ req, encryptRequest msg key = some req →
      msg ≠ "" ∧ key ≠ [] ∧ req.message = msg ∧ req.key = key ∧
        derive (key.map natToBit) ≠ .error .InsufficientEntropy) ∧
    (key = [] → encryptButtonDisabled key = true) := by
  constructor
  · intro req hreq
    unfold encryptRequest at hreq
    split at hreq
    · exact Option.noConfusion hreq
    · rename_i hcond
      push_neg at hcond
      obtain ⟨hmsg, hlen⟩ := hcond
      injection hreq with hreq
      have hkey : key ≠ [] := fun hnil => hlen (by rw [hnil]; rfl)
      refine ⟨hmsg, hkey, by rw [← hreq], by rw [← hreq], ?_⟩
      have hmap : key.map natToBit ≠ [] := by
        simpa [List.map_eq_nil_iff] using hkey
      unfold derive
      rw [if_neg hmap]
      exact fun h => Except.noConfusion h
  · intro hnil
    subst hnil
    rfl

/-- C9 witness: a concrete sent request and the disabled button on an empty
key. -/
theorem encryptMessage_guard_witness :
    encryptRequest "hi" [1, 0] = some ⟨"hi", [1, 0]⟩ ∧
      ("hi" ≠ "" ∧ [1, 0] ≠ ([] : List Nat) ∧
        (⟨"hi", [1, 0]⟩ : EncryptRequest).message = "hi" ∧
        (⟨"hi", [1, 0]⟩ : EncryptRequest).key = [1, 0] ∧
        derive (([1, 0] : List Nat).map natToBit)
          ≠ .error .InsufficientEntropy) ∧
      encryptButtonDisabled [] = true :=
  ⟨by rfl, (encryptMessage_guard "hi" [1, 0]).1 ⟨"hi", [1, 0]⟩ (by rfl),
    (encryptMessage_guard "hi" []).2 rfl⟩

/-- A response carrying an `error` field that JavaScript treats as falsy
(the empty string) together with payload fields. -/
def dErr : RunData :=
  { error := some ""
    table_data := []
    matched_indices := []
    bob_key := [1]
    eve_key := []
    qber := 1/4 }

/-- C10 counterexample: a response that contains an `error` field (the empty
string, falsy in JavaScript) still has its results displayed — the sifted
key ends non-empty, refuting the claim as stated. -/
theorem applyRunResponse_error_counterexample :
    dErr.error = some "" ∧ (applyRunResponse initialView dErr).siftedKey = [1] :=
  ⟨rfl, rfl⟩

/-- C10 (amended): when the run response carries a non-empty error message,
`runSimulation` leaves the reset values in place — table data, sifted key and
Eve's key empty, QBER `0`, no highlighted row, not running. -/
theorem applyRunResponse_error_resets (s : SimView) (d : RunData)
    (msg : String) (herr : d.error = some msg) (hne : msg ≠ "") :
    (applyRunResponse s d).tableData = [] ∧
    (applyRunResponse s d).siftedKey = [] ∧
    (applyRunResponse s d).eveKey = [] ∧
    (applyRunResponse s d).qber = 0 ∧
    (applyRunResponse s d).highlightedRow = none ∧
    (applyRunResponse s d).isRunning = false := by
  have htruthy : jsTruthyStr d.error = true := by
    rw [herr]
    simpa [jsTruthyStr] using hne
  unfold applyRunResponse
  rw [htruthy]
  simp [resetForRun]

/-- A response with a genuine (non-empty) error message. -/
def dErr2 : RunData :=
  { error := some "Number of bits must be positive"
    table_data := []
    matched_indices := []
    bob_key := [1]
    eve_key := []
    qber := 1/4 }

/-- C10 witness: the amended reset behaviour at a concrete errored
response. -/
theorem applyRunResponse_error_resets_witness :
    dErr2.error = some "Number of bits must be positive" ∧
      ("Number of bits must be positive" : String) ≠ "" ∧
      (applyRunResponse initialView dErr2).tableData = [] ∧
      (applyRunResponse initialView dErr2).siftedKey = [] ∧
      (applyRunResponse initialView dErr2).eveKey = [] ∧
      (applyRunResponse initialView dErr2).qber = 0 ∧
      (applyRunResponse initialView dErr2).highlightedRow = none ∧
      (applyRunResponse initialView dErr2).isRunning = false := by
  refine ⟨rfl, by decide, ?_⟩
  have h := applyRunResponse_error_resets initialView dErr2
    "Number of bits must be positive" rfl (by decide)
  exact ⟨h.1, h.2.1, h.2.2.1, h.2.2.2.1, h.2.2.2.2.1, h.2.2.2.2.2⟩

/-- C4 counterexample: the field names the frontend actually sends are
`n_bits`/`eve_prob`, not the contract's
`photonCount`/`eveInterceptProbability` — the fields do not coincide. -/
theorem run_boundary_fields_counterexample :
    frontendRunRequestFields ≠ specRunRequestFields := by decide

/-- C4 (amended): the run boundary exchanges the contract's shapes under the
backend's wire names — mapping each wire name to its contract name carries
the request fields onto `{photonCount, eveInterceptProbability}`, the
response fields read onto the contract's response components (with `error`
as the `InvalidParameter` alternative), and every per-photon row key the
frontend reads onto a contract row field. -/
theorem run_boundary_fields_correspond :
    frontendRunRequestFields.map wireToContract = specRunRequestFields ∧
    frontendRunResponseFields.map wireToContract = specRunResponseFields ∧
    (frontendRowKeysRead.map rowKeyToContract).all
      (fun k => specRowFields.contains k) = true := by
  refine ⟨by decide, by decide, by decide⟩

end BB84
